import Mathlib

/-!
Verification of the MoverAi repository: a shallow embedding in Lean 4 of the
unit-normalization helper (`ensureUnits`), the generation client
(`generateInventoryFromDescription`), the localStorage-backed inventory store
(`getSavedInventories` / `saveInventory` / `deleteInventoryById`), and the
application view state machine of `App.tsx`, together with theorems settling
the specification claims.

Strings are modelled as `List Char`.  JavaScript `number` timestamps are
modelled as `Nat` (millisecond clocks are passed explicitly where the source
reads `new Date()`).
-/

namespace MoverAi

/-- The set of characters matched by JavaScript `\s` (and removed by
`String.prototype.trim`): ASCII whitespace, NBSP, the Unicode space
separators, line/paragraph separators and the BOM. -/
def isJsSpace (c : Char) : Bool :=
  c = ' ' || c = '\t' || c = '\n' || c = '\r' || c = '\x0b' || c = '\x0c' ||
  c = '\u00A0' || c = '\u1680' || (0x2000 ≤ c.val && c.val ≤ 0x200A) ||
  c = '\u2028' || c = '\u2029' || c = '\u202F' || c = '\u205F' ||
  c = '\u3000' || c = '\uFEFF'

/-- Leading-whitespace removal, the first half of `String.prototype.trim`. -/
def trimLeft (s : List Char) : List Char := s.dropWhile isJsSpace

/-- Trailing-whitespace removal, the second half of `String.prototype.trim`. -/
def trimRight (s : List Char) : List Char := (s.reverse.dropWhile isJsSpace).reverse

/-- JavaScript `String.prototype.trim`. -/
def trimJS (s : List Char) : List Char := trimRight (trimLeft s)

/-- Case-insensitive "the pattern is an initial segment of the text", the
building block for the unit-token regex (the `/i` flag lowercases ASCII
letters on both sides before comparing). -/
def ciStarts : List Char → List Char → Bool
  | [], _ => true
  | _ :: _, [] => false
  | p :: ps, c :: cs => (p.toLower = c.toLower) && ciStarts ps cs

/-- Match `\s?pat` against an initial segment of `l` (used for the `cu\s?ft`
and `ft\s?³` regex alternatives). -/
def optSpaceThen (pat : List Char) (l : List Char) : Bool :=
  ciStarts pat l ||
    (match l with
     | c :: cs => isJsSpace c && ciStarts pat cs
     | [] => false)

/-- One position of the regex `/(cubic|cu\s?ft|ft\s?³|feet)/i` from
`ensureUnits`: does some alternative match starting at the head of `l`? -/
def matchUnitAt (l : List Char) : Bool :=
  ciStarts "cubic".toList l ||
  ciStarts "feet".toList l ||
  (ciStarts "cu".toList l && optSpaceThen "ft".toList (l.drop 2)) ||
  (ciStarts "ft".toList l && optSpaceThen "³".toList (l.drop 2))

/-- `RegExp.prototype.test` for `/(cubic|cu\s?ft|ft\s?³|feet)/i`: scan every
suffix for a match. -/
def unitSearch : List Char → Bool
  | [] => false
  | c :: cs => matchUnitAt (c :: cs) || unitSearch cs

/-- `RegExp.prototype.test` for `/^\d+(\.\d+)?$/`: one or more digits,
optionally followed by a point and one or more digits.  (The leading `\d+` is
greedy and nothing after it can match a digit, so taking the longest digit
run is exact.) -/
def pureNumTest (l : List Char) : Bool :=
  let d := l.takeWhile Char.isDigit
  let r := l.dropWhile Char.isDigit
  !d.isEmpty &&
    (r.isEmpty ||
      (match r with
       | '.' :: r2 => !r2.isEmpty && r2.all Char.isDigit
       | _ => false))

/-- `RegExp.prototype.test` for `/\d/`. -/
def digitTest (l : List Char) : Bool := l.any Char.isDigit

/-- `ensureUnits` from `services/geminiService` (src/unnamed/part_001,
lines 63-74): trim the size string; return it if it already carries a unit
token; append `" cubic feet"` if it is purely numeric or contains any digit;
otherwise return it as is.  (The `String(size)` coercion is the identity on
the string inputs modelled here.) -/
def ensureUnits (s : List Char) : List Char :=
  let sizeStr := trimJS s
  if unitSearch sizeStr then sizeStr
  else if pureNumTest sizeStr || digitTest sizeStr then
    sizeStr ++ " cubic feet".toList
  else sizeStr

example : ensureUnits "12".toList = "12 cubic feet".toList := by decide
example : ensureUnits "12 cubic feet".toList = "12 cubic feet".toList := by decide
example : ensureUnits "approx. 1.5 cu ft".toList = "approx. 1.5 cu ft".toList := by decide
example : ensureUnits "variable".toList = "variable".toList := by decide
example : ensureUnits "12 boxes".toList = "12 boxes cubic feet".toList := by decide
example : ensureUnits " 5 cubic feet ".toList = "5 cubic feet".toList := by decide

theorem dropWhile_head_false (p : Char → Bool) :
    ∀ (l : List Char) (a : Char), a ∈ (l.dropWhile p).head? → p a = false := by
  intro l
  induction l with
  | nil => intro a h; simp at h
  | cons c cs ih =>
    intro a h
    rw [List.dropWhile_cons] at h
    cases hc : p c
    · rw [hc] at h
      simp only [Bool.false_eq_true, if_false, List.head?_cons, Option.mem_def,
        Option.some.injEq] at h
      subst h
      exact hc
    · rw [hc] at h
      simp only [if_true] at h
      exact ih a h

theorem exists_dropWhile_app (p : Char → Bool) (l : List Char) :
    ∃ t, t ++ l.dropWhile p = l := by
  induction l with
  | nil => exact ⟨[], rfl⟩
  | cons a l ih =>
    by_cases h : p a
    · obtain ⟨t, ht⟩ := ih
      exact ⟨a :: t, by simp [List.dropWhile_cons, h, ht]⟩
    · exact ⟨[], by simp [List.dropWhile_cons, h]⟩

theorem trimJS_fix {t : List Char}
    (h1 : ∀ a ∈ t.head?, isJsSpace a = false)
    (h2 : ∀ a ∈ t.getLast?, isJsSpace a = false) :
    trimJS t = t := by
  cases t with
  | nil => rfl
  | cons a v =>
    have ha : isJsSpace a = false := h1 a rfl
    have hL : trimLeft (a :: v) = a :: v := by
      simp [trimLeft, List.dropWhile_cons, ha]
    rcases List.eq_nil_or_concat (a :: v) with h | ⟨ys, b, hyb⟩
    · simp at h
    · have hb : isJsSpace b = false := by
        apply h2
        rw [hyb]
        simp [List.getLast?_concat]
      have hR : trimRight (a :: v) = a :: v := by
        rw [hyb, List.concat_eq_append, trimRight, List.reverse_append]
        simp [List.dropWhile_cons, hb]
      show trimRight (trimLeft (a :: v)) = a :: v
      rw [hL, hR]

theorem head_trimJS (s : List Char) :
    ∀ a ∈ (trimJS s).head?, isJsSpace a = false := by
  intro a ha
  obtain ⟨t0, ht0⟩ := exists_dropWhile_app isJsSpace (trimLeft s).reverse
  have hu : trimLeft s = trimJS s ++ t0.reverse := by
    have h := congrArg List.reverse ht0
    simp only [List.reverse_append, List.reverse_reverse] at h
    simpa [trimJS, trimRight] using h.symm
  cases hT : trimJS s with
  | nil => rw [hT] at ha; simp at ha
  | cons b rest =>
    rw [hT] at ha
    have hab : b = a := by simpa using ha
    have hh : (s.dropWhile isJsSpace).head? = some b := by
      have : trimLeft s = b :: (rest ++ t0.reverse) := by rw [hu, hT]; simp
      simpa [trimLeft] using congrArg List.head? this
    subst hab
    exact dropWhile_head_false isJsSpace s b (by simp [Option.mem_def, hh])

theorem getLast_trimJS (s : List Char) :
    ∀ a ∈ (trimJS s).getLast?, isJsSpace a = false := by
  intro a ha
  have h : (trimJS s).getLast? = ((trimLeft s).reverse.dropWhile isJsSpace).head? := by
    simp [trimJS, trimRight]
  rw [h] at ha
  exact dropWhile_head_false isJsSpace (trimLeft s).reverse a ha

theorem trimJS_trimJS (s : List Char) : trimJS (trimJS s) = trimJS s :=
  trimJS_fix (head_trimJS s) (getLast_trimJS s)

theorem unitSearch_append (x y : List Char) (h : unitSearch y = true) :
    unitSearch (x ++ y) = true := by
  induction x with
  | nil => simpa
  | cons c cs ih => simp [unitSearch, ih]

theorem trimJS_append_cubicFeet (t : List Char) (ht : trimJS t = t) (hne : t ≠ []) :
    trimJS (t ++ " cubic feet".toList) = t ++ " cubic feet".toList := by
  apply trimJS_fix
  · intro a ha
    cases t with
    | nil => exact absurd rfl hne
    | cons b v =>
      have hb : isJsSpace b = false := by
        have h := head_trimJS (b :: v)
        rw [ht] at h
        exact h b rfl
      have hab : b = a := by simpa using ha
      subst hab
      exact hb
  · intro a ha
    have hdec : (" cubic feet".toList : List Char) = " cubic fee".toList ++ ['t'] := by decide
    have h : (t ++ " cubic feet".toList).getLast? = some 't' := by
      rw [hdec, ← List.append_assoc]
      exact List.getLast?_concat _
    rw [h] at ha
    have hat : 't' = a := by simpa using ha
    subst hat
    decide

theorem pureNum_imp_digit (l : List Char) (h : pureNumTest l = true) :
    digitTest l = true := by
  cases l with
  | nil => simp [pureNumTest] at h
  | cons c cs =>
    by_cases hc : Char.isDigit c
    · simp [digitTest, hc]
    · simp [pureNumTest, List.takeWhile_cons, hc] at h

/-- Claim C1 counterexample: `"12 boxes"` is not purely numeric and carries no
unit token, yet `ensureUnits` does not return it unchanged — the `/\d/` branch
appends `" cubic feet"` to any digit-bearing string. -/
theorem C1_counterexample :
    unitSearch (trimJS "12 boxes".toList) = false
    ∧ pureNumTest (trimJS "12 boxes".toList) = false
    ∧ ensureUnits "12 boxes".toList ≠ "12 boxes".toList
    ∧ ensureUnits "12 boxes".toList = "12 boxes cubic feet".toList := by
  decide

/-- Claim C1 (amended): the normalization applied to `estimatedSize` and
`totalEstimatedSize` first trims the string and then splits in three ways on
the trimmed string: a string carrying a volume-unit token is returned
(trimmed but) otherwise unchanged; otherwise a string containing any digit
(in particular a purely numeric one) gets the literal suffix `" cubic feet"`
appended; otherwise the trimmed string is returned unchanged. -/
theorem C1_ensureUnits_cases (s : List Char) :
    (unitSearch (trimJS s) = true → ensureUnits s = trimJS s)
    ∧ (unitSearch (trimJS s) = false → (∃ c ∈ trimJS s, Char.isDigit c) →
        ensureUnits s = trimJS s ++ " cubic feet".toList)
    ∧ (unitSearch (trimJS s) = false → (∀ c ∈ trimJS s, Char.isDigit c = false) →
        ensureUnits s = trimJS s) := by
  refine ⟨?_, ?_, ?_⟩
  · intro h
    simp [ensureUnits, h]
  · intro h hd
    have hdig : digitTest (trimJS s) = true := by
      rcases hd with ⟨c, hc, hdc⟩
      exact List.any_eq_true.mpr ⟨c, hc, hdc⟩
    simp [ensureUnits, h, hdig]
  · intro h hall
    have hdig : digitTest (trimJS s) = false := by
      rw [digitTest, List.any_eq_false]
      intro c hc
      simp [hall c hc]
    have hpn : pureNumTest (trimJS s) = false := by
      cases hp : pureNumTest (trimJS s)
      · rfl
      · rw [pureNum_imp_digit _ hp] at hdig
        cases hdig
    simp [ensureUnits, h, hdig, hpn]

/-- Witness for C1: at `"12"` (purely numeric, no unit token) the amended
case split yields `"12 cubic feet"`. -/
theorem C1_witness :
    (unitSearch (trimJS "12".toList) = false
      ∧ (∃ c ∈ trimJS "12".toList, Char.isDigit c))
    ∧ ensureUnits "12".toList = trimJS "12".toList ++ " cubic feet".toList :=
  ⟨by decide, (C1_ensureUnits_cases "12".toList).2.1 (by decide) (by decide)⟩

/-- Claim C7 counterexample: `" 5 cubic feet "` carries a unit token, but
normalizing it does not return it unchanged — `ensureUnits` trims it. -/
theorem C7_counterexample :
    unitSearch " 5 cubic feet ".toList = true
    ∧ ensureUnits " 5 cubic feet ".toList ≠ " 5 cubic feet ".toList := by
  decide

/-- Claim C7 (amended): normalizing an already-trimmed unit-bearing size
string returns it unchanged (padded strings are additionally trimmed);
normalizing `"12"` yields `"12 cubic feet"`; normalizing `"12 cubic feet"`
yields `"12 cubic feet"` (no double-append); and normalization is idempotent
on every string. -/
theorem C7_normalize_idem :
    (∀ s : List Char, trimJS s = s → unitSearch s = true → ensureUnits s = s)
    ∧ ensureUnits "12".toList = "12 cubic feet".toList
    ∧ ensureUnits "12 cubic feet".toList = "12 cubic feet".toList
    ∧ ∀ s : List Char, ensureUnits (ensureUnits s) = ensureUnits s := by
  refine ⟨?_, by decide, by decide, ?_⟩
  · intro s hts hus
    simp [ensureUnits, hts, hus]
  · intro s
    have htt : trimJS (trimJS s) = trimJS s := trimJS_trimJS s
    by_cases hu : unitSearch (trimJS s) = true
    · have h1 : ensureUnits s = trimJS s := by simp [ensureUnits, hu]
      rw [h1]
      simp [ensureUnits, htt, hu]
    · have hu' : unitSearch (trimJS s) = false := by simpa using hu
      by_cases hd : (pureNumTest (trimJS s) || digitTest (trimJS s)) = true
      · have h1 : ensureUnits s = trimJS s ++ " cubic feet".toList := by
          simp only [ensureUnits, hu', Bool.false_eq_true, if_false, hd, if_true]
        have hdig : digitTest (trimJS s) = true := by
          rcases (by simpa using hd :
              pureNumTest (trimJS s) = true ∨ digitTest (trimJS s) = true) with h | h
          · exact pureNum_imp_digit _ h
          · exact h
        have hne : trimJS s ≠ [] := by
          intro h0
          rw [h0] at hdig
          simp [digitTest] at hdig
        have h2 : trimJS (trimJS s ++ " cubic feet".toList)
            = trimJS s ++ " cubic feet".toList :=
          trimJS_append_cubicFeet _ htt hne
        have h3 : unitSearch (trimJS s ++ " cubic feet".toList) = true :=
          unitSearch_append _ _ (by decide)
        rw [h1]
        set suf : List Char := " cubic feet".toList with hsuf
        simp [ensureUnits, h2, h3]
      · have hd' : (pureNumTest (trimJS s) || digitTest (trimJS s)) = false := by
          simpa using hd
        have h1 : ensureUnits s = trimJS s := by simp [ensureUnits, hu', hd']
        rw [h1]
        simp [ensureUnits, htt, hu', hd']

/-- Witness for C7: the trimmed unit-bearing string `"5 cu ft"` is returned
unchanged. -/
theorem C7_witness :
    (trimJS "5 cu ft".toList = "5 cu ft".toList
      ∧ unitSearch "5 cu ft".toList = true)
    ∧ ensureUnits "5 cu ft".toList = "5 cu ft".toList :=
  ⟨by decide, C7_normalize_idem.1 "5 cu ft".toList (by decide) (by decide)⟩

/-- `InventoryItem` from `types.ts`. -/
structure InventoryItem where
  name : List Char
  count : Int
  description : List Char
  tags : List (List Char)
  estimatedSize : List Char
deriving DecidableEq

/-- `InventoryData` from `types.ts`. -/
structure InventoryData where
  inventory : List InventoryItem
  transcript : List Char
  totalEstimatedSize : List Char
deriving DecidableEq

/-- The value produced by `JSON.parse(jsonText) as InventoryData` before the
field checks run: each required top-level field may be missing (`none`
models an absent or `null` field). -/
structure RawResponse where
  inventory : Option (List InventoryItem)
  transcript : Option (List Char)
  totalEstimatedSize : Option (List Char)
deriving DecidableEq

/-- Outcome of the external `generateContent` call in
`generateInventoryFromDescription`: the call itself may reject
(`callError`), `JSON.parse` of the returned text may throw or yield a value
of the wrong shape (`parseError`), or a structured response is obtained
(`parsed`). -/
inductive ServiceOutcome
  | callError
  | parseError
  | parsed (r : RawResponse)
deriving DecidableEq

/-- The single wrapped user-facing message thrown by the `catch` block of
`generateInventoryFromDescription`. -/
def geminiErrorMsg : List Char :=
  "Failed to generate inventory from AI. Please check the console for more details.".toList

/-- `generateInventoryFromDescription` (src/unnamed/part_001, lines 110-139)
as a function of the service call's outcome.  The source's
`!parsedData.inventory || !parsedData.transcript || !parsedData.totalEstimatedSize`
check uses JavaScript truthiness: `!inventory` is true exactly when the
field is absent or null (a parsed array is always truthy), while
`!transcript` and `!totalEstimatedSize` are additionally true when the field
is the empty string.  Both the inner `throw` and any service/parse error are
caught by the surrounding `catch`, which rethrows the single wrapped
message, so every failure path yields `Except.error geminiErrorMsg`. -/
def generateInventoryFromDescription (o : ServiceOutcome) :
    Except (List Char) InventoryData :=
  match o with
  | .callError => .error geminiErrorMsg
  | .parseError => .error geminiErrorMsg
  | .parsed r =>
    match r.inventory, r.transcript, r.totalEstimatedSize with
    | some inv, some tr, some tot =>
      if tr.isEmpty || tot.isEmpty then .error geminiErrorMsg
      else
        .ok { inventory := inv.map (fun item =>
                { item with estimatedSize := ensureUnits item.estimatedSize }),
              transcript := tr,
              totalEstimatedSize := ensureUnits tot }
    | _, _, _ => .error geminiErrorMsg

/-- Spec-side failure condition, following the amended claim C5: the call
errors, the response is unparsable, or one of the three required fields is
absent — or, for the two string fields, present but empty (JavaScript
truthiness treats an empty string like a missing field). -/
def generationFailureSpec (o : ServiceOutcome) : Bool :=
  match o with
  | .callError => true
  | .parseError => true
  | .parsed r =>
    r.inventory.isNone || r.transcript.isNone || decide (r.transcript = some [])
      || r.totalEstimatedSize.isNone || decide (r.totalEstimatedSize = some [])

/-- The list of error messages carried by an `Except` result (empty on
success, a single message on failure). -/
def errList : Except (List Char) InventoryData → List (List Char)
  | .error e => [e]
  | .ok _ => []

/-- Concrete parsed response whose three required fields are all present but
whose transcript is the empty string. -/
def rawEmptyTranscript : RawResponse :=
  { inventory := some [], transcript := some [], totalEstimatedSize := some "5".toList }

/-- Claim C5 counterexample: a parsed response with all of `inventory`,
`transcript`, `totalEstimatedSize` present (transcript empty) still fails,
so "fails exactly when the call errors, the response is unparsable, or a
field is absent" is false: the truthiness check also rejects present-but-empty
string fields. -/
theorem C5_counterexample :
    (generateInventoryFromDescription (.parsed rawEmptyTranscript)).isOk = false
    ∧ rawEmptyTranscript.inventory ≠ none
    ∧ rawEmptyTranscript.transcript ≠ none
    ∧ rawEmptyTranscript.totalEstimatedSize ≠ none
    ∧ ServiceOutcome.parsed rawEmptyTranscript ≠ .callError
    ∧ ServiceOutcome.parsed rawEmptyTranscript ≠ .parseError := by
  decide

/-- Claim C5 (amended): generation fails exactly when the service call
errors, the response cannot be parsed, or one of `inventory`, `transcript`,
`totalEstimatedSize` is absent from the parsed response or (for the two
string fields) present but empty; every failure carries the single wrapped
user-facing message and no partial `InventoryData` is returned. -/
theorem C5_generation_failure (o : ServiceOutcome) :
    errList (generateInventoryFromDescription o)
      = (if generationFailureSpec o then [geminiErrorMsg] else [])
    ∧ ((generateInventoryFromDescription o).isOk = true
        ↔ generationFailureSpec o = false) := by
  cases o with
  | callError =>
    simp [generateInventoryFromDescription, generationFailureSpec, errList, Except.isOk,
      Except.toBool]
  | parseError =>
    simp [generateInventoryFromDescription, generationFailureSpec, errList, Except.isOk,
      Except.toBool]
  | parsed r =>
    obtain ⟨inv, tr, tot⟩ := r
    rcases inv with _ | inv
    · simp [generateInventoryFromDescription, generationFailureSpec, errList,
        Except.isOk, Except.toBool]
    · rcases tr with _ | tr
      · simp [generateInventoryFromDescription, generationFailureSpec, errList,
          Except.isOk, Except.toBool]
      · rcases tot with _ | tot
        · simp [generateInventoryFromDescription, generationFailureSpec, errList,
            Except.isOk, Except.toBool]
        · by_cases h1 : tr = [] <;> by_cases h2 : tot = [] <;>
            simp [generateInventoryFromDescription, generationFailureSpec, errList,
              Except.isOk, Except.toBool, List.isEmpty_iff, h1, h2]

/-- Everything claim C10 says is preserved by the post-processing step:
transcript, item count and order, and each item's name, count, description
and tags. -/
def framePreserved (d : InventoryData) (inv : List InventoryItem) (tr : List Char) : Prop :=
  d.transcript = tr
  ∧ d.inventory.length = inv.length
  ∧ ∀ i : Nat,
      d.inventory[i]?.map InventoryItem.name = inv[i]?.map InventoryItem.name
      ∧ d.inventory[i]?.map InventoryItem.count = inv[i]?.map InventoryItem.count
      ∧ d.inventory[i]?.map InventoryItem.description
          = inv[i]?.map InventoryItem.description
      ∧ d.inventory[i]?.map InventoryItem.tags = inv[i]?.map InventoryItem.tags

/-- Claim C10: on a successful generation the post-processing modifies only
`estimatedSize` of each item and the top-level `totalEstimatedSize`; the
transcript, the number and order of the items, and each item's name, count,
description and tags are those of the parsed service response. -/
theorem C10_frame (r : RawResponse) (inv : List InventoryItem) (tr tot : List Char)
    (hi : r.inventory = some inv) (htr : r.transcript = some tr)
    (hto : r.totalEstimatedSize = some tot)
    (htrne : tr ≠ []) (htotne : tot ≠ []) :
    ∃ d, generateInventoryFromDescription (.parsed r) = .ok d
      ∧ framePreserved d inv tr := by
  have h1 : tr.isEmpty = false := by simpa [List.isEmpty_iff] using htrne
  have h2 : tot.isEmpty = false := by simpa [List.isEmpty_iff] using htotne
  refine ⟨{ inventory := inv.map (fun item =>
              { item with estimatedSize := ensureUnits item.estimatedSize }),
            transcript := tr, totalEstimatedSize := ensureUnits tot },
    ?_, rfl, by simp, ?_⟩
  · simp [generateInventoryFromDescription, hi, htr, hto, h1, h2]
  · intro i
    refine ⟨?_, ?_, ?_, ?_⟩ <;>
      · simp only [List.getElem?_map]
        cases inv[i]? <;> rfl

/-- Concrete inventory item for the C10 witness. -/
def itemW : InventoryItem :=
  { name := "Sofa".toList, count := 1, description := "grey".toList,
    tags := ["Living Room".toList], estimatedSize := "40".toList }

/-- Concrete parsed response for the C10 witness. -/
def rawW : RawResponse :=
  { inventory := some [itemW], transcript := some "t".toList,
    totalEstimatedSize := some "99".toList }

/-- Witness for C10 at a concrete parsed response with one item. -/
theorem C10_witness :
    (rawW.inventory = some [itemW]
      ∧ rawW.transcript = some "t".toList
      ∧ rawW.totalEstimatedSize = some "99".toList
      ∧ "t".toList ≠ ([] : List Char)
      ∧ "99".toList ≠ ([] : List Char))
    ∧ ∃ d, generateInventoryFromDescription (.parsed rawW) = .ok d
        ∧ framePreserved d [itemW] "t".toList :=
  ⟨by decide,
    C10_frame rawW [itemW] "t".toList "99".toList rfl rfl rfl
      (by decide) (by decide)⟩

/-- `SavedInventoryData` from `types.ts`: an `InventoryData` enriched with an
id and a creation timestamp.  The source stores `createdAt` as the ISO-8601
string `new Date().toISOString()` and always compares records through
`new Date(createdAt).getTime()`; since that round trip recovers the
millisecond value, `createdAt` is modelled directly as the millisecond
timestamp. -/
structure SavedInventoryData extends InventoryData where
  id : List Char
  createdAt : Nat
deriving DecidableEq

/-- The contents of `localStorage` under the `easyMoveInventories` key:
`absent` (no entry, or a falsy empty-string entry), `corrupt` (an entry on
which `JSON.parse` throws, or that parses to a value without a callable
`.sort`, so the `try` block throws), or a parsed list of records. -/
inductive StoreContent
  | absent
  | corrupt
  | ok (l : List SavedInventoryData)
deriving DecidableEq

/-- The sort comparator
`(a, b) => new Date(b.createdAt).getTime() - new Date(a.createdAt).getTime()`:
`a` may stay before `b` exactly when `b.createdAt ≤ a.createdAt`. -/
def leSaved (a b : SavedInventoryData) : Bool :=
  decide (b.createdAt ≤ a.createdAt)

/-- `Array.prototype.sort` is a stable sort, so the newest-first ordering of
the source is the stable merge sort under `leSaved`. -/
def sortSaved (l : List SavedInventoryData) : List SavedInventoryData :=
  l.mergeSort leSaved

/-- `getSavedInventories` from `services/storageService`
(src/components/ProcessingIndicator.tsx, lines 47-61): read the collection,
sort it newest-first, and on a parse failure remove the corrupted entry and
return the empty list.  The result pairs the returned list with the storage
contents after the call (a successful read leaves storage untouched: `sort`
mutates only the in-memory parsed array). -/
def getSavedInventories : StoreContent → List SavedInventoryData × StoreContent
  | .absent => ([], .absent)
  | .corrupt => ([], .absent)
  | .ok l => (sortSaved l, .ok l)

/-- The id string `inv_` followed by the millisecond clock, from
`saveInventory`. -/
def mkId (clock : Nat) : List Char := "inv_".toList ++ (Nat.repr clock).toList

/-- The enriched record built by `saveInventory` (the source reads
`new Date()` twice in the same record literal; both reads are modelled at
the same millisecond). -/
def enrich (d : InventoryData) (clock : Nat) : SavedInventoryData :=
  { toInventoryData := d, id := mkId clock, createdAt := clock }

/-- `saveInventory` (src/components/ProcessingIndicator.tsx, lines 68-87):
read the existing records, unshift the enriched record, write back, and
return the enriched record.  The quota-exceeded branch of `setItem` (which
rethrows) is not modelled: the write is assumed to succeed. -/
def saveInventory (d : InventoryData) (clock : Nat) (c : StoreContent) :
    SavedInventoryData × StoreContent :=
  let allInventories := (getSavedInventories c).1
  let newInventory := enrich d clock
  (newInventory, .ok (newInventory :: allInventories))

/-- `deleteInventoryById` (src/components/ProcessingIndicator.tsx,
lines 93-102): read, keep the records whose id differs, write back
(best-effort; the write is assumed to succeed). -/
def deleteInventoryById (id : List Char) (c : StoreContent) : StoreContent :=
  let allInventories := (getSavedInventories c).1
  .ok (allInventories.filter (fun inv => decide (inv.id ≠ id)))

theorem leSaved_trans :
    ∀ (a b c : SavedInventoryData), leSaved a b → leSaved b c → leSaved a c := by
  intro a b c hab hbc
  simp only [leSaved, decide_eq_true_eq] at *
  omega

theorem leSaved_total :
    ∀ (a b : SavedInventoryData), leSaved a b || leSaved b a := by
  intro a b
  simp only [leSaved, Bool.or_eq_true, decide_eq_true_eq]
  omega

theorem getSaved_sorted (c : StoreContent) :
    List.Pairwise (fun a b => leSaved a b = true) (getSavedInventories c).1 := by
  cases c with
  | absent => exact List.Pairwise.nil
  | corrupt => exact List.Pairwise.nil
  | ok l => exact List.sorted_mergeSort leSaved_trans leSaved_total l

theorem sortSaved_of_sorted {l : List SavedInventoryData}
    (h : List.Pairwise (fun a b => leSaved a b = true) l) : sortSaved l = l :=
  List.mergeSort_of_sorted h

/-- Minimal concrete `InventoryData` used in concrete store scenarios. -/
def xData : InventoryData :=
  { inventory := [], transcript := "t".toList, totalEstimatedSize := "5".toList }

/-- Claim C3 counterexample: two saves during the same clock millisecond
receive the same id (`"inv_5"`), so the assigned id is not unique, and the
resulting list holds the same record twice instead of exactly once. -/
theorem C3_counterexample :
    ((saveInventory xData 5 ((saveInventory xData 5 .absent).2)).1).id
      = ((saveInventory xData 5 .absent).1).id
    ∧ List.count ((saveInventory xData 5 .absent).1)
        (getSavedInventories
          ((saveInventory xData 5 ((saveInventory xData 5 .absent).2)).2)).1 = 2 := by
  have h1 : sortSaved [enrich xData 5] = [enrich xData 5] :=
    sortSaved_of_sorted (by simp)
  have h2 : sortSaved [enrich xData 5, enrich xData 5]
      = [enrich xData 5, enrich xData 5] :=
    sortSaved_of_sorted (by simp [List.pairwise_cons, leSaved])
  refine ⟨rfl, ?_⟩
  have key : (getSavedInventories
      ((saveInventory xData 5 ((saveInventory xData 5 .absent).2)).2)).1
      = [enrich xData 5, enrich xData 5] := by
    show sortSaved (enrich xData 5 :: sortSaved [enrich xData 5])
        = [enrich xData 5, enrich xData 5]
    rw [h1]
    exact h2
  rw [key]
  decide

/-- Conclusion of the amended claim C3 at given inputs: the saved record is
the input data enriched with id `inv_<clock>` and timestamp `clock`; a
subsequent `list()` is exactly the new record followed by the previous
records (so it appears before all of them), contains the new record exactly
once, and the new id differs from every previously stored id. -/
def saveSpecHolds (d : InventoryData) (clock : Nat) (c : StoreContent) : Prop :=
  (saveInventory d clock c).1 = enrich d clock
  ∧ (enrich d clock).toInventoryData = d
  ∧ (enrich d clock).id = mkId clock
  ∧ (enrich d clock).createdAt = clock
  ∧ (getSavedInventories (saveInventory d clock c).2).1
      = enrich d clock :: (getSavedInventories c).1
  ∧ List.count (enrich d clock) (getSavedInventories (saveInventory d clock c).2).1 = 1
  ∧ ∀ r ∈ (getSavedInventories c).1, r.id ≠ (saveInventory d clock c).1.id

/-- Claim C3 (amended): `save` enriches the data with id `inv_<millis>` and
the current timestamp, persists it at the head, and returns it; provided
every already-stored record has an earlier timestamp and no stored record
already carries the id minted from this millisecond (ids collide for two
saves within one millisecond), a later `list()` contains exactly one record
equal to the enriched data and shows it before every previously saved
record. -/
theorem C3_save_spec (d : InventoryData) (clock : Nat) (c : StoreContent)
    (hmono : ∀ r ∈ (getSavedInventories c).1, r.createdAt < clock)
    (hid : ∀ r ∈ (getSavedInventories c).1, r.id ≠ mkId clock) :
    saveSpecHolds d clock c := by
  have hpw : List.Pairwise (fun a b => leSaved a b = true)
      (enrich d clock :: (getSavedInventories c).1) := by
    refine List.Pairwise.cons ?_ (getSaved_sorted c)
    intro r hr
    have := hmono r hr
    simp only [leSaved, enrich, decide_eq_true_eq]
    omega
  have hlist : (getSavedInventories (saveInventory d clock c).2).1
      = enrich d clock :: (getSavedInventories c).1 := by
    show sortSaved (enrich d clock :: (getSavedInventories c).1)
        = enrich d clock :: (getSavedInventories c).1
    exact sortSaved_of_sorted hpw
  have hnotmem : enrich d clock ∉ (getSavedInventories c).1 := by
    intro hmem
    have := hmono _ hmem
    simp [enrich] at this
  refine ⟨rfl, rfl, rfl, rfl, hlist, ?_, ?_⟩
  · rw [hlist, List.count_cons_self, List.count_eq_zero.mpr hnotmem]
  · intro r hr
    exact hid r hr

/-- Witness for C3: saving into an empty store at clock 1. -/
theorem C3_witness :
    ((∀ r ∈ (getSavedInventories .absent).1, r.createdAt < 1)
      ∧ (∀ r ∈ (getSavedInventories .absent).1, r.id ≠ mkId 1))
    ∧ saveSpecHolds xData 1 .absent :=
  ⟨⟨by decide, by decide⟩, C3_save_spec xData 1 .absent (by decide) (by decide)⟩

/-- Claim C8 counterexample: with a record saved at millisecond 5 already in
the store, saving again at millisecond 5 and then deleting the returned id
empties the store instead of restoring the pre-save list, because the
timestamp-derived ids collide and `filter` removes both records. -/
theorem C8_counterexample :
    (getSavedInventories (.ok [enrich xData 5])).1 = [enrich xData 5]
    ∧ (getSavedInventories
        (deleteInventoryById (saveInventory xData 5 (.ok [enrich xData 5])).1.id
          (saveInventory xData 5 (.ok [enrich xData 5])).2)).1 = [] := by
  have h1 : sortSaved [enrich xData 5] = [enrich xData 5] :=
    sortSaved_of_sorted (by simp)
  have h2 : sortSaved [enrich xData 5, enrich xData 5]
      = [enrich xData 5, enrich xData 5] :=
    sortSaved_of_sorted (by simp [List.pairwise_cons, leSaved])
  constructor
  · exact h1
  · have hdel : deleteInventoryById (saveInventory xData 5 (.ok [enrich xData 5])).1.id
        ((saveInventory xData 5 (.ok [enrich xData 5])).2) = .ok [] := by
      show StoreContent.ok
          ((sortSaved (enrich xData 5 :: sortSaved [enrich xData 5])).filter
            (fun inv => decide (inv.id ≠ mkId 5)))
        = StoreContent.ok []
      rw [h1, h2]
      decide
    rw [hdel]
    show sortSaved [] = []
    exact sortSaved_of_sorted List.Pairwise.nil

/-- Claim C8 (amended): deleting an id not present in the store leaves
`list()` unchanged; and `save` followed by `deleteById` of the returned id
restores `list()` to the pre-save records, provided no already-stored record
carries the id minted from the save's millisecond (two saves within one
millisecond share an id, and deletion then removes both). -/
theorem C8_delete_noop_roundtrip (id : List Char) (d : InventoryData) (clock : Nat)
    (c : StoreContent)
    (h1 : ∀ r ∈ (getSavedInventories c).1, r.id ≠ id)
    (h2 : ∀ r ∈ (getSavedInventories c).1, r.id ≠ mkId clock) :
    (getSavedInventories (deleteInventoryById id c)).1 = (getSavedInventories c).1
    ∧ (getSavedInventories
        (deleteInventoryById (saveInventory d clock c).1.id
          (saveInventory d clock c).2)).1
      = (getSavedInventories c).1 := by
  constructor
  · have hfil : (getSavedInventories c).1.filter (fun inv => decide (inv.id ≠ id))
        = (getSavedInventories c).1 := by
      rw [List.filter_eq_self]
      intro r hr
      simpa using h1 r hr
    show sortSaved ((getSavedInventories c).1.filter (fun inv => decide (inv.id ≠ id)))
        = (getSavedInventories c).1
    rw [hfil]
    exact sortSaved_of_sorted (getSaved_sorted c)
  · obtain ⟨l₁, l₂, hsplit, hrest, -⟩ :=
      List.mergeSort_cons leSaved_trans leSaved_total (enrich d clock)
        (getSavedInventories c).1
    have hprev : (getSavedInventories c).1 = l₁ ++ l₂ := by
      rw [← hrest]
      exact (sortSaved_of_sorted (getSaved_sorted c)).symm
    have hpassed : ∀ r ∈ (getSavedInventories c).1,
        decide (r.id ≠ mkId clock) = true := by
      intro r hr
      simpa using h2 r hr
    have hfil : (sortSaved (enrich d clock :: (getSavedInventories c).1)).filter
          (fun inv => decide (inv.id ≠ mkId clock))
        = (getSavedInventories c).1 := by
      show (List.mergeSort (enrich d clock :: (getSavedInventories c).1) leSaved).filter
          (fun inv => decide (inv.id ≠ mkId clock)) = (getSavedInventories c).1
      rw [hsplit, List.filter_append, List.filter_cons]
      have henr : (decide ((enrich d clock).id ≠ mkId clock)) = false := by
        simp [enrich]
      rw [henr]
      have hl₁ : l₁.filter (fun inv => decide (inv.id ≠ mkId clock)) = l₁ := by
        rw [List.filter_eq_self]
        intro r hr
        exact hpassed r (by rw [hprev]; exact List.mem_append_left _ hr)
      have hl₂ : l₂.filter (fun inv => decide (inv.id ≠ mkId clock)) = l₂ := by
        rw [List.filter_eq_self]
        intro r hr
        exact hpassed r (by rw [hprev]; exact List.mem_append_right _ hr)
      rw [hl₁, hl₂]
      simp only [Bool.false_eq_true, if_false]
      exact hprev.symm
    have hsaveid : (saveInventory d clock c).1.id = mkId clock := rfl
    show sortSaved
        ((getSavedInventories (saveInventory d clock c).2).1.filter
          (fun inv => decide (inv.id ≠ (saveInventory d clock c).1.id)))
      = (getSavedInventories c).1
    rw [hsaveid]
    have hcontent : (getSavedInventories (saveInventory d clock c).2).1
        = sortSaved (enrich d clock :: (getSavedInventories c).1) := rfl
    rw [hcontent, hfil]
    exact sortSaved_of_sorted (getSaved_sorted c)

/-- Witness for C8: a store holding one record saved at millisecond 5, a
fresh delete id, and a save at millisecond 9. -/
theorem C8_witness :
    ((∀ r ∈ (getSavedInventories (.ok [enrich xData 5])).1, r.id ≠ "zzz".toList)
      ∧ (∀ r ∈ (getSavedInventories (.ok [enrich xData 5])).1, r.id ≠ mkId 9))
    ∧ ((getSavedInventories (deleteInventoryById "zzz".toList (.ok [enrich xData 5]))).1
          = (getSavedInventories (.ok [enrich xData 5])).1
        ∧ (getSavedInventories
            (deleteInventoryById (saveInventory xData 9 (.ok [enrich xData 5])).1.id
              (saveInventory xData 9 (.ok [enrich xData 5])).2)).1
          = (getSavedInventories (.ok [enrich xData 5])).1) :=
  have h1 : (getSavedInventories (.ok [enrich xData 5])).1 = [enrich xData 5] :=
    sortSaved_of_sorted (by simp)
  ⟨⟨by rw [h1]; decide, by rw [h1]; decide⟩,
    C8_delete_noop_roundtrip "zzz".toList xData 9 (.ok [enrich xData 5])
      (by rw [h1]; decide) (by rw [h1]; decide)⟩

/-- Claim C9: unparsable persisted content reads as the empty list, the
corrupted entry is discarded (a subsequent read also sees an empty store),
and the corruption is not surfaced to the caller — the read is total and
simply returns a list. -/
theorem C9_corruption_self_heals :
    getSavedInventories .corrupt = ([], .absent)
    ∧ getSavedInventories (getSavedInventories .corrupt).2 = ([], .absent) := by
  decide

/-- The `View` union of `App.tsx`. -/
inductive View
  | IDLE
  | PROCESSING
  | SUCCESS
  | ERROR
  | LIST_INVENTORIES
  | CAPTURING_VIDEO
deriving DecidableEq

/-- The `activeInventory` React state holds either a freshly generated
`InventoryData` or a `SavedInventoryData` loaded from the store (the source
distinguishes them with an `'id' in activeInventory` check). -/
inductive ActiveInv
  | fresh (d : InventoryData)
  | saved (d : SavedInventoryData)
deriving DecidableEq

/-- The React state of the `App` component (`App.tsx`, lines 151-157)
together with the browser-storage contents and a ghost counter `requests`
instrumenting how many calls to `generateInventoryFromDescription` have been
issued. -/
structure AppModel where
  description : List Char
  view : View
  activeInventory : Option ActiveInv
  savedInventories : List SavedInventoryData
  error : Option (List Char)
  fileName : Option (List Char)
  isProcessingVideo : Bool
  store : StoreContent
  requests : Nat
deriving DecidableEq

/-- The inline validation message set by `handleSubmit` for a blank
description. -/
def validationMsg : List Char :=
  "Please describe the contents of your space for an accurate estimate.".toList

/-- The synchronous part of `handleSubmit` (`App.tsx`, lines 193-212): a
blank (empty after trimming) description only sets the validation message;
otherwise the error is cleared, the view moves to `PROCESSING`, the active
inventory is cleared, and a generation request is issued (counted by the
ghost field `requests`). -/
def handleSubmit (s : AppModel) : AppModel :=
  if trimJS s.description = [] then { s with error := some validationMsg }
  else
    { s with error := none, view := .PROCESSING, activeInventory := none,
             requests := s.requests + 1 }

/-- Continuation of `handleSubmit` when the awaited generation call
resolves. -/
def resolveGeneration (r : InventoryData) (s : AppModel) : AppModel :=
  { s with activeInventory := some (.fresh r), view := .SUCCESS }

/-- Continuation of `handleSubmit` when the awaited generation call rejects.
The only value the awaited `generateInventoryFromDescription` ever rejects
with is `Error(geminiErrorMsg)` (every failure path rethrows that single
wrapped message), and it is an `Error` instance, so the catch arm stores its
message. -/
def rejectGeneration (s : AppModel) : AppModel :=
  { s with error := some geminiErrorMsg, view := .ERROR }

/-- `handleResetToIdle` (`App.tsx`, lines 214-225): the full reset (the DOM
file-input clearing has no counterpart in the model state). -/
def handleResetToIdle (s : AppModel) : AppModel :=
  { s with view := .IDLE, activeInventory := none, error := none,
           description := [], fileName := none, isProcessingVideo := false }

/-- The `InventoryData` carried by an active inventory (a saved record
spreads into the same data fields when re-saved). -/
def activeData : ActiveInv → InventoryData
  | .fresh d => d
  | .saved d => d.toInventoryData

/-- `handleSaveInventory` (`App.tsx`, lines 227-231): persist, prepend the
enriched record to the in-memory list, and show the saved list.  Note that
`activeInventory` is not cleared. -/
def handleSaveInventory (toSave : InventoryData) (clock : Nat) (s : AppModel) :
    AppModel :=
  let res := saveInventory toSave clock s.store
  { s with store := res.2, savedInventories := res.1 :: s.savedInventories,
           view := .LIST_INVENTORIES }

/-- The `activeInventory && 'id' in activeInventory && activeInventory.id === id`
test of `handleDeleteInventory`. -/
def activeIdMatches : Option ActiveInv → List Char → Bool
  | some (.saved d), id => decide (d.id = id)
  | _, _ => false

/-- `handleDeleteInventory` (`App.tsx`, lines 233-242): delete from storage,
re-read the list, and if the deleted id was the one being viewed, return to
the list with the active inventory cleared. -/
def handleDeleteInventory (id : List Char) (s : AppModel) : AppModel :=
  let c1 := deleteInventoryById id s.store
  let res := getSavedInventories c1
  let s1 := { s with store := res.2, savedInventories := res.1 }
  if activeIdMatches s.activeInventory id then
    { s1 with view := .LIST_INVENTORIES, activeInventory := none }
  else s1

/-- `handleViewInventory` (`App.tsx`, lines 244-247). -/
def handleViewInventory (d : SavedInventoryData) (s : AppModel) : AppModel :=
  { s with activeInventory := some (.saved d), view := .SUCCESS }

/-- The `onDone` handler of the `SUCCESS` view (`App.tsx`, lines 264-270):
back to the list when the active record came from the store, else the full
reset. -/
def handleDone (s : AppModel) : AppModel :=
  match s.activeInventory with
  | some (.saved _) => { s with view := .LIST_INVENTORIES }
  | _ => handleResetToIdle s

/-- The `Use Camera` button: `setView('CAPTURING_VIDEO')`. -/
def startCapture (s : AppModel) : AppModel := { s with view := .CAPTURING_VIDEO }

/-- The `onCancel` handler of the `CAPTURING_VIDEO` view (`App.tsx`,
line 254): `setView('IDLE')` and nothing else. -/
def cancelCapture (s : AppModel) : AppModel := { s with view := .IDLE }

/-- The synchronous part of `processVideoFile` (`App.tsx`, lines 163-178):
record the file name, mark video processing, clear the error and the
description. -/
def beginProcessVideo (name : List Char) (s : AppModel) : AppModel :=
  { s with fileName := some name, isProcessingVideo := true, error := none,
           description := [] }

/-- `handleCaptureComplete` (`App.tsx`, lines 188-191): back to `IDLE`, then
start processing the captured file. -/
def handleCaptureComplete (name : List Char) (s : AppModel) : AppModel :=
  beginProcessVideo name { s with view := .IDLE }

/-- Completion of `processVideoFile`: `generateDescriptionFromVideo` always
resolves (its promise only ever calls `resolve`), so the `catch` branch of
`processVideoFile` is unreachable and only the success continuation is
modelled. -/
def finishProcessVideo (d : List Char) (s : AppModel) : AppModel :=
  { s with description := d, isProcessingVideo := false }

/-- The initial React state (`App.tsx`, lines 151-161), after the mount
effect has loaded the saved inventories. -/
def initialState (c : StoreContent) : AppModel :=
  { description := [], view := .IDLE, activeInventory := none,
    savedInventories := (getSavedInventories c).1, error := none,
    fileName := none, isProcessingVideo := false,
    store := (getSavedInventories c).2, requests := 0 }

/-- One user- or completion-driven transition of the application.  Each
constructor is guarded by the conditions under which the source can fire the
corresponding handler (which view is rendered, which buttons are enabled). -/
inductive Step : AppModel → AppModel → Prop
  | editDescription (s : AppModel) (d : List Char) :
      s.view = .IDLE → s.isProcessingVideo = false →
      Step s { s with description := d }
  | submit (s : AppModel) :
      s.view = .IDLE → s.isProcessingVideo = false → Step s (handleSubmit s)
  | genOk (s : AppModel) (r : InventoryData) :
      s.view = .PROCESSING → Step s (resolveGeneration r s)
  | genErr (s : AppModel) :
      s.view = .PROCESSING → Step s (rejectGeneration s)
  | viewSavedList (s : AppModel) :
      s.view = .IDLE → s.savedInventories ≠ [] →
      Step s { s with view := .LIST_INVENTORIES }
  | resetFromError (s : AppModel) :
      s.view = .ERROR → Step s (handleResetToIdle s)
  | newFromList (s : AppModel) :
      s.view = .LIST_INVENTORIES → Step s (handleResetToIdle s)
  | done (s : AppModel) :
      s.view = .SUCCESS → Step s (handleDone s)
  | saveActive (s : AppModel) (a : ActiveInv) (clock : Nat) :
      s.view = .SUCCESS → s.activeInventory = some a →
      Step s (handleSaveInventory (activeData a) clock s)
  | deleteRec (s : AppModel) (id : List Char) :
      s.view = .SUCCESS ∨ s.view = .LIST_INVENTORIES →
      Step s (handleDeleteInventory id s)
  | viewRec (s : AppModel) (d : SavedInventoryData) :
      s.view = .LIST_INVENTORIES → d ∈ s.savedInventories →
      Step s (handleViewInventory d s)
  | useCamera (s : AppModel) :
      s.view = .IDLE → s.isProcessingVideo = false → Step s (startCapture s)
  | cancelCam (s : AppModel) :
      s.view = .CAPTURING_VIDEO → Step s (cancelCapture s)
  | captureDone (s : AppModel) (name : List Char) :
      s.view = .CAPTURING_VIDEO → Step s (handleCaptureComplete name s)
  | uploadFile (s : AppModel) (name : List Char) :
      s.view = .IDLE → s.isProcessingVideo = false →
      Step s (beginProcessVideo name s)
  | videoDescribed (s : AppModel) (d : List Char) :
      s.isProcessingVideo = true → Step s (finishProcessVideo d s)

/-- States reachable from the initial state over a given initial storage
content. -/
inductive Reachable (c : StoreContent) : AppModel → Prop
  | init : Reachable c (initialState c)
  | step {s t : AppModel} : Reachable c s → Step s t → Reachable c t

/-- Key invariant of the view state machine: a non-null `activeInventory`
only occurs in the `SUCCESS` and `LIST_INVENTORIES` views (the latter
because neither `handleSaveInventory` nor the saved-record `onDone` path
clears it). -/
theorem reachable_active_view {c : StoreContent} {s : AppModel}
    (h : Reachable c s) :
    s.activeInventory ≠ none → s.view = .SUCCESS ∨ s.view = .LIST_INVENTORIES := by
  induction h with
  | init => intro hne; simp [initialState] at hne
  | step hr hs ih =>
    rename_i s t
    cases hs with
    | editDescription d hv hp => exact ih
    | submit hv hp =>
      by_cases hd : trimJS s.description = []
      · simp only [handleSubmit]
        rw [if_pos hd]
        exact ih
      · simp only [handleSubmit]
        rw [if_neg hd]
        intro hne
        simp at hne
    | genOk r hv => intro _; left; rfl
    | genErr hv =>
      intro hne
      have h2 := ih hne
      rw [hv] at h2
      simp at h2
    | viewSavedList hv hne2 => intro _; right; rfl
    | resetFromError hv => intro hne; simp [handleResetToIdle] at hne
    | newFromList hv => intro hne; simp [handleResetToIdle] at hne
    | done hv =>
      cases hai : s.activeInventory with
      | none => simp [handleDone, hai, handleResetToIdle]
      | some a =>
        cases a with
        | fresh d => simp [handleDone, hai, handleResetToIdle]
        | saved d =>
          simp only [handleDone, hai]
          intro _
          right
          trivial
    | saveActive a clock hv ha => intro _; right; rfl
    | deleteRec id hv =>
      cases hb : activeIdMatches s.activeInventory id with
      | true =>
        simp only [handleDeleteInventory, hb]
        intro hne
        simp at hne
      | false =>
        simp only [handleDeleteInventory, hb]
        intro hne
        exact ih hne
    | viewRec d hv hm => intro _; left; rfl
    | useCamera hv hp =>
      intro hne
      have h2 := ih hne
      rw [hv] at h2
      simp at h2
    | cancelCam hv =>
      intro hne
      have h2 := ih hne
      rw [hv] at h2
      simp at h2
    | captureDone name hv =>
      intro hne
      have h2 := ih hne
      rw [hv] at h2
      simp at h2
    | uploadFile name hv hp => exact ih
    | videoDescribed d hp => exact ih

/-- Idle state with a non-blank description typed in, over an empty store. -/
def sIdleDesc : AppModel := { initialState .absent with description := "sofa".toList }

/-- The state after submitting from `sIdleDesc` (view `PROCESSING`). -/
def sProc : AppModel := handleSubmit sIdleDesc

/-- The state after the generation call resolves with `xData` (view
`SUCCESS`, active inventory set). -/
def sSucc : AppModel := resolveGeneration xData sProc

/-- The state after the user saves from `sSucc` at clock 7. -/
def sAfterSave : AppModel := handleSaveInventory (activeData (.fresh xData)) 7 sSucc

theorem reachable_sProc : Reachable .absent sProc :=
  Reachable.step
    (Reachable.step Reachable.init
      (Step.editDescription (initialState .absent) "sofa".toList (by decide) (by decide)))
    (Step.submit sIdleDesc (by decide) (by decide))

theorem reachable_sSucc : Reachable .absent sSucc :=
  Reachable.step reachable_sProc (Step.genOk sProc xData (by decide))

/-- Claim C2 counterexample: a concrete reachable trace (type a description,
submit, generation succeeds, save) ends in the `LIST_INVENTORIES` view with
`activeInventory` still non-null, because `handleSaveInventory` moves to the
list without clearing it — so "activeInventory is non-null only in Success"
fails. -/
theorem C2_counterexample :
    Reachable .absent sAfterSave
    ∧ sAfterSave.view = .LIST_INVENTORIES
    ∧ sAfterSave.activeInventory ≠ none := by
  refine ⟨?_, by decide, by decide⟩
  exact Reachable.step reachable_sSucc
    (Step.saveActive sSucc (.fresh xData) 7 (by decide) (by decide))

/-- Claim C2 (amended): on every reachable state, `activeInventory` is
non-null only in the `Success` or `ListInventories` views (saving from
Success and closing a store-loaded record both move to `ListInventories`
without clearing it); the dedicated reset transition into `Idle` (Try
Again / Create New / done-with-unsaved-inventory) clears `activeInventory`,
`error`, the pending description and the pending file name; the cancel
transition from `CapturingVideo` changes only the view, but its target
already has a null `activeInventory`. -/
theorem C2_active_only_in_success_or_list {c : StoreContent} {s : AppModel}
    (h : Reachable c s) :
    (s.activeInventory ≠ none → s.view = .SUCCESS ∨ s.view = .LIST_INVENTORIES)
    ∧ ((handleResetToIdle s).view = .IDLE
        ∧ (handleResetToIdle s).activeInventory = none
        ∧ (handleResetToIdle s).error = none
        ∧ (handleResetToIdle s).description = []
        ∧ (handleResetToIdle s).fileName = none
        ∧ (handleResetToIdle s).isProcessingVideo = false)
    ∧ (s.view = .CAPTURING_VIDEO → s.activeInventory = none) := by
  refine ⟨reachable_active_view h, ⟨rfl, rfl, rfl, rfl, rfl, rfl⟩, ?_⟩
  intro hv
  cases hai : s.activeInventory with
  | none => rfl
  | some a =>
    have h2 := reachable_active_view h (by simp [hai])
    rw [hv] at h2
    simp at h2

/-- Witness for C2 at the initial state over an empty store. -/
theorem C2_witness :
    Reachable .absent (initialState .absent)
    ∧ (((initialState .absent).activeInventory ≠ none →
          (initialState .absent).view = .SUCCESS
          ∨ (initialState .absent).view = .LIST_INVENTORIES)
      ∧ ((handleResetToIdle (initialState .absent)).view = .IDLE
          ∧ (handleResetToIdle (initialState .absent)).activeInventory = none
          ∧ (handleResetToIdle (initialState .absent)).error = none
          ∧ (handleResetToIdle (initialState .absent)).description = []
          ∧ (handleResetToIdle (initialState .absent)).fileName = none
          ∧ (handleResetToIdle (initialState .absent)).isProcessingVideo = false)
      ∧ ((initialState .absent).view = .CAPTURING_VIDEO →
          (initialState .absent).activeInventory = none)) :=
  ⟨Reachable.init, C2_active_only_in_success_or_list Reachable.init⟩

/-- Claim C4: submitting a blank (empty or whitespace-only) description from
`Idle` is rejected locally: the handler only sets the validation message —
the view stays `Idle`, no generation request is issued, and nothing else
changes. -/
theorem C4_blank_submit_rejected (s : AppModel) (hv : s.view = .IDLE)
    (hd : trimJS s.description = []) :
    handleSubmit s = { s with error := some validationMsg }
    ∧ (handleSubmit s).view = .IDLE
    ∧ (handleSubmit s).requests = s.requests
    ∧ (handleSubmit s).activeInventory = s.activeInventory
    ∧ validationMsg ≠ [] := by
  have h1 : handleSubmit s = { s with error := some validationMsg } := by
    simp [handleSubmit, hd]
  refine ⟨h1, ?_, ?_, ?_, by decide⟩
  · rw [h1]; exact hv
  · rw [h1]
  · rw [h1]

/-- Idle state whose description is whitespace-only. -/
def sIdleBlank : AppModel :=
  { initialState .absent with description := "   ".toList }

/-- Witness for C4 at a whitespace-only description. -/
theorem C4_witness :
    (sIdleBlank.view = .IDLE ∧ trimJS sIdleBlank.description = [])
    ∧ (handleSubmit sIdleBlank = { sIdleBlank with error := some validationMsg }
      ∧ (handleSubmit sIdleBlank).view = .IDLE
      ∧ (handleSubmit sIdleBlank).requests = sIdleBlank.requests
      ∧ (handleSubmit sIdleBlank).activeInventory = sIdleBlank.activeInventory
      ∧ validationMsg ≠ []) :=
  ⟨⟨by decide, by decide⟩, C4_blank_submit_rejected sIdleBlank (by decide) (by decide)⟩

/-- Claim C6: from a reachable `Processing` state, a rejected generation call
moves to `Error` with the (non-empty) wrapped service message and a null
`activeInventory`, and a resolved call moves to `Success` with
`activeInventory` equal to the returned data. -/
theorem C6_processing_transitions {c : StoreContent} {s : AppModel}
    (h : Reachable c s) (hv : s.view = .PROCESSING) :
    ((rejectGeneration s).view = .ERROR
      ∧ (rejectGeneration s).error = some geminiErrorMsg
      ∧ geminiErrorMsg ≠ []
      ∧ (rejectGeneration s).activeInventory = none)
    ∧ ∀ r : InventoryData,
        (resolveGeneration r s).view = .SUCCESS
        ∧ (resolveGeneration r s).activeInventory = some (.fresh r) := by
  have hact : s.activeInventory = none := by
    cases hai : s.activeInventory with
    | none => rfl
    | some a =>
      have h2 := reachable_active_view h (by simp [hai])
      rw [hv] at h2
      simp at h2
  exact ⟨⟨rfl, rfl, by decide, by simp [rejectGeneration, hact]⟩,
    fun r => ⟨rfl, rfl⟩⟩

/-- Witness for C6 at the concrete reachable `Processing` state `sProc`. -/
theorem C6_witness :
    (Reachable .absent sProc ∧ sProc.view = .PROCESSING)
    ∧ (((rejectGeneration sProc).view = .ERROR
        ∧ (rejectGeneration sProc).error = some geminiErrorMsg
        ∧ geminiErrorMsg ≠ []
        ∧ (rejectGeneration sProc).activeInventory = none)
      ∧ ∀ r : InventoryData,
          (resolveGeneration r sProc).view = .SUCCESS
          ∧ (resolveGeneration r sProc).activeInventory = some (.fresh r)) :=
  ⟨⟨reachable_sProc, by decide⟩,
    C6_processing_transitions reachable_sProc (by decide)⟩

end MoverAi
